import Mathlib

/-!
Verification of the pvcreek pageviews library (`parse.py`, `sift.py`).

The decoder (`parse_domain_code`), line parser (`parse_line`) and stream
filter (`sift`) are embedded as executable Lean functions, translated
branch for branch from the Python source.  Python exceptions are modelled
by `Except PvError`; Python `str.split(".")`, `str.split()` and `int(str)`
are modelled by `dotSplit`, `pySplit` and `pyInt` below.
-/

namespace Pvcreek

/-- Error taxonomy of `parse.py`: `parse_domain_code` raises `ValueError`
carrying the offending token (the spec's `InvalidDomainCodeError`), and
`parse_line` raises `ValueError` on tuple-unpacking or `int()` failure
(the spec's `MalformedLineError`). -/
inductive PvError where
  | invalidDomainCode (tok : String) : PvError
  | malformedLine : PvError
deriving DecidableEq, Repr

instance {ε α : Type} [DecidableEq ε] [DecidableEq α] : DecidableEq (Except ε α) :=
  fun x y =>
    match x, y with
    | .error a, .error b =>
      if h : a = b then .isTrue (by rw [h]) else .isFalse (by intro hh; cases hh; exact h rfl)
    | .ok a, .ok b =>
      if h : a = b then .isTrue (by rw [h]) else .isFalse (by intro hh; cases hh; exact h rfl)
    | .error _, .ok _ => .isFalse (by intro hh; cases hh)
    | .ok _, .error _ => .isFalse (by intro hh; cases hh)

/-- The `DOMAINS` table of `parse.py`: project-suffix → project domain. -/
def DOMAINS : List (String × String) :=
  [("", "wikipedia.org"),
   ("b", "wikibooks.org"),
   ("d", "wiktionary.org"),
   ("f", "wikimediafoundation.org"),
   ("m", "wikimedia.org"),
   ("n", "wikinews.org"),
   ("q", "wikiquote.org"),
   ("s", "wikisource.org"),
   ("v", "wikiversity.org"),
   ("voy", "wikivoyage.org"),
   ("w", "mediawiki.org"),
   ("wd", "wikidata.org")]

/-- The `WIKIMEDIA_SUB_DOMAINS` table of `parse.py`: whitelisted
meta-project name → full domain. -/
def WIKIMEDIA_SUB_DOMAINS : List (String × String) :=
  [("commons", "commons.wikimedia.org"),
   ("meta", "meta.wikimedia.org"),
   ("incubator", "incubator.wikimedia.org"),
   ("species", "species.wikimedia.org"),
   ("strategy", "strategy.wikimedia.org"),
   ("outreach", "outreach.wikimedia.org"),
   ("usability", "usability.wikimedia.org"),
   ("quality", "quality.wikimedia.org")]

/-- Python `DOMAINS.get(k, k)`: table lookup defaulting to the key itself. -/
def domainsGet (k : String) : String := (DOMAINS.lookup k).getD k

/-- The `Pageviews` dataclass of `parse.py`.  `count_views` is `Int`
because Python `int()` accepts negative numbers and the code does not
re-validate the range. -/
structure Pageviews where
  domain_code : String
  page_title : String
  count_views : Int
  language : String
  project : String
  mobile : Bool
deriving DecidableEq, Repr

/-- Python `s.split(".")` on the character list of `s`: split on every
dot, keeping empty pieces; the result is never empty. -/
def splitOnDot : List Char → List (List Char)
  | [] => [[]]
  | c :: cs =>
    if c = '.' then [] :: splitOnDot cs
    else
      match splitOnDot cs with
      | [] => [[c]]
      | w :: ws => (c :: w) :: ws

/-- Python `domain_code.split(".")` as a list of strings. -/
def dotSplit (s : String) : List String := (splitOnDot s.data).map String.mk

/-- `parse_domain_code` from `parse.py`, branch for branch:
one segment → base encyclopedia; else whitelisted first segment →
English meta-project, mobile iff 3 segments; else two segments →
mobile marker or suffix lookup; else three segments → mobile with
suffix lookup; otherwise `ValueError` (InvalidDomainCodeError). -/
def parse_domain_code (domain_code : String) : Except PvError (String × String × Bool) :=
  match dotSplit domain_code with
  | [] => .error (.invalidDomainCode domain_code)
  | [language] => .ok (language, "wikipedia.org", false)
  | language :: p1 :: rest =>
    match WIKIMEDIA_SUB_DOMAINS.lookup language with
    | some d => .ok ("en", d, rest.length == 1)
    | none =>
      match rest with
      | [] =>
        if p1 == "m" || p1 == "zero" then .ok (language, "wikipedia.org", true)
        else .ok (language, domainsGet p1, false)
      | [p2] => .ok (language, domainsGet p2, true)
      | _ => .error (.invalidDomainCode domain_code)

/-- Whitespace characters recognised by Python `str.split()` (ASCII part;
valid pageviews lines contain no other whitespace). -/
def isPySpace (c : Char) : Bool :=
  c = ' ' || c = '\t' || c = '\n' || c = '\r' || c = '\x0b' || c = '\x0c'

/-- Word-splitting on whitespace runs with an accumulator of the current
word's characters in reverse, as in Python `str.split()` with no
arguments: leading, trailing and repeated whitespace produce no empty
words. -/
def wordsAux : List Char → List Char → List (List Char)
  | [], acc => if acc.isEmpty then [] else [acc.reverse]
  | c :: cs, acc =>
    if isPySpace c then
      if acc.isEmpty then wordsAux cs [] else acc.reverse :: wordsAux cs []
    else wordsAux cs (c :: acc)

/-- Python `line.split()` (no arguments) as a list of strings. -/
def pySplit (s : String) : List String := (wordsAux s.data []).map String.mk

/-- Whether a character is an ASCII decimal digit. -/
def pyDigit (c : Char) : Bool := '0' ≤ c && c ≤ '9'

/-- Numeric value of an ASCII digit character. -/
def digitVal (c : Char) : Nat := c.toNat - '0'.toNat

/-- Digit accumulation for `pyInt`: after a first digit, every further
character is a digit or a single underscore followed by a digit. -/
def pyNatAux : Nat → List Char → Option Nat
  | acc, [] => some acc
  | acc, '_' :: c :: cs => if pyDigit c then pyNatAux (10 * acc + digitVal c) cs else none
  | _, ['_'] => none
  | acc, c :: cs => if pyDigit c then pyNatAux (10 * acc + digitVal c) cs else none

/-- Unsigned part of Python `int(str)`: at least one digit, underscores
only between digits. -/
def pyNat : List Char → Option Nat
  | [] => none
  | c :: cs => if pyDigit c then pyNatAux (digitVal c) cs else none

/-- Python `int(str)` on the tokens produced by `str.split()` (which never
contain whitespace), restricted to ASCII digits: optional sign, then
digits with optional single underscores between them; anything else
raises `ValueError`, modelled as `none`. -/
def pyInt (s : String) : Option Int :=
  match s.data with
  | '+' :: rest => (pyNat rest).map (fun n => (n : Int))
  | '-' :: rest => (pyNat rest).map (fun n => -(n : Int))
  | rest => (pyNat rest).map (fun n => (n : Int))

/-- `parse_line` from `parse.py`: unpack exactly four whitespace-separated
fields (else `MalformedLineError`), decode the domain code (propagating
its error), then convert the view count with `int()` (else
`MalformedLineError`); the fourth field is discarded.  The `int()`
conversion happens after the domain-code decode, as in the source. -/
def parse_line (line : String) : Except PvError Pageviews :=
  match pySplit line with
  | [domain_code, page_title, count_views, _byteSize] =>
    match parse_domain_code domain_code with
    | .error e => .error e
    | .ok (language, project, mobile) =>
      match pyInt count_views with
      | none => .error .malformedLine
      | some n =>
        .ok { domain_code := domain_code, page_title := page_title,
              count_views := n, language := language, project := project,
              mobile := mobile }
  | _ => .error .malformedLine

/-- A string criterion of `sift.py`: a plain string (exact match) or a
compiled regular expression, modelled by its match-at-start test. -/
inductive StrFilter where
  | exact (s : String) : StrFilter
  | pattern (test : String → Bool) : StrFilter

/-- `compare_str` from `sift.py`: regex criteria use `Pattern.match`,
plain strings use equality. -/
def compare_str (filter_value : StrFilter) (target : String) : Bool :=
  match filter_value with
  | .pattern m => m target
  | .exact s => s == target

/-- `compare_int` from `sift.py`: reject below the lower bound (when set)
or above the upper bound (when set), else accept. -/
def compare_int (filter_min filter_max : Option Int) (target : Int) : Bool :=
  if filter_min.any (fun m => decide (target < m)) then false
  else if filter_max.any (fun m => decide (target > m)) then false
  else true

/-- `compare_bool` from `sift.py`: plain equality. -/
def compare_bool (value target : Bool) : Bool := value == target

/-- `sift` from `sift.py`: one comparator per supplied criterion (the
view-count comparator is added when either bound is set), a record is
kept iff all comparators accept it.  The lazy generator is modelled as a
list transformation. -/
def sift (stream : List Pageviews)
    (domain_code page_title : Option StrFilter)
    (min_views max_views : Option Int)
    (language project : Option StrFilter)
    (mobile : Option Bool) : List Pageviews :=
  stream.filter (fun pv =>
    (match domain_code with | none => true | some f => compare_str f pv.domain_code)
    && (match page_title with | none => true | some f => compare_str f pv.page_title)
    && (if min_views.isSome || max_views.isSome
        then compare_int min_views max_views pv.count_views else true)
    && (match language with | none => true | some f => compare_str f pv.language)
    && (match project with | none => true | some f => compare_str f pv.project)
    && (match mobile with | none => true | some b => compare_bool b pv.mobile))

/-! ## Helper lemmas -/

theorem stringMk_data (s : String) : String.mk s.data = s := by
  cases s
  rfl

theorem splitOnDot_ne_nil : ∀ l : List Char, splitOnDot l ≠ []
  | [] => by simp [splitOnDot]
  | c :: cs => by
    simp only [splitOnDot]
    split
    · simp
    · split <;> simp

theorem splitOnDot_no_dot (t : List Char) (h : ∀ c ∈ t, c ≠ '.') :
    splitOnDot t = [t] := by
  induction t with
  | nil => rfl
  | cons c cs ih =>
    have hc : ¬ (c = '.') := h c (by simp)
    have ih' : splitOnDot cs = [cs] := ih (fun x hx => h x (by simp [hx]))
    simp only [splitOnDot, if_neg hc, ih']

theorem splitOnDot_append_dot (t r : List Char) (h : ∀ c ∈ t, c ≠ '.') :
    splitOnDot (t ++ '.' :: r) = t :: splitOnDot r := by
  induction t with
  | nil => simp [splitOnDot]
  | cons c cs ih =>
    have hc : ¬ (c = '.') := h c (by simp)
    have ih' := ih (fun x hx => h x (by simp [hx]))
    simp only [List.cons_append, splitOnDot, if_neg hc, List.append_eq, ih']

theorem domainsGet_ne_empty (p : String) : domainsGet p ≠ "" := by
  unfold domainsGet DOMAINS
  simp only [List.lookup]
  repeat' split
  all_goals simp_all [Option.getD]

theorem wikimedia_lookup_ne_empty (p d : String)
    (h : WIKIMEDIA_SUB_DOMAINS.lookup p = some d) : d ≠ "" := by
  unfold WIKIMEDIA_SUB_DOMAINS at h
  simp only [List.lookup] at h
  repeat' split at h
  all_goals try exact Option.noConfusion h
  all_goals injection h with h
  all_goals subst h
  all_goals decide

theorem string_append_empty (s : String) : s ++ "" = s := by
  cases s
  show String.mk _ = _
  simp [String.append]

theorem string_empty_append (s : String) : "" ++ s = s := by
  cases s
  show String.mk _ = _
  simp [String.append]

theorem wordsAux_ws_skip (w l : List Char) (hw : ∀ c ∈ w, isPySpace c = true) :
    wordsAux (w ++ l) [] = wordsAux l [] := by
  induction w with
  | nil => rfl
  | cons c cs ih =>
    have hc := hw c (by simp)
    simp only [List.cons_append, wordsAux, hc, if_true, List.isEmpty_nil, ite_true]
    exact ih (fun x hx => hw x (by simp [hx]))

theorem wordsAux_token (t : List Char) (ht : ∀ c ∈ t, isPySpace c = false) :
    ∀ (l acc : List Char), wordsAux (t ++ l) acc = wordsAux l (t.reverse ++ acc) := by
  induction t with
  | nil => intro l acc ; rfl
  | cons c cs ih =>
    intro l acc
    have hc := ht c (by simp)
    simp only [List.cons_append, wordsAux, hc, Bool.false_eq_true, if_false, List.append_eq]
    rw [ih (fun x hx => ht x (by simp [hx])) l (c :: acc)]
    simp [List.reverse_cons, List.append_assoc]

theorem wordsAux_all_ws (w : List Char) (hw : ∀ c ∈ w, isPySpace c = true) :
    wordsAux w [] = [] := by
  induction w with
  | nil => rfl
  | cons c cs ih =>
    have hc := hw c (by simp)
    simp [wordsAux, hc, ih (fun x hx => hw x (by simp [hx]))]

theorem wordsAux_flush (acc : List Char) (hacc : acc ≠ []) :
    ∀ (w l : List Char), w ≠ [] → (∀ c ∈ w, isPySpace c = true) →
      wordsAux (w ++ l) acc = acc.reverse :: wordsAux l [] := by
  intro w l hw hws
  cases w with
  | nil => exact absurd rfl hw
  | cons c cs =>
    have hc := hws c (by simp)
    have hne : acc.isEmpty = false := by simp [List.isEmpty_iff, hacc]
    simp [wordsAux, hc, hne, wordsAux_ws_skip cs l (fun x hx => hws x (by simp [hx]))]

theorem wordsAux_end (acc : List Char) (hacc : acc ≠ []) (w : List Char)
    (hw : ∀ c ∈ w, isPySpace c = true) : wordsAux w acc = [acc.reverse] := by
  cases w with
  | nil => simp [wordsAux, List.isEmpty_iff, hacc]
  | cons c cs =>
    have hc := hw c (by simp)
    have hne : acc.isEmpty = false := by simp [List.isEmpty_iff, hacc]
    simp [wordsAux, hc, hne, wordsAux_all_ws cs (fun x hx => hw x (by simp [hx]))]

theorem wordsAux_ws_suffix (w : List Char) (hw : ∀ c ∈ w, isPySpace c = true) :
    ∀ (l acc : List Char), wordsAux (l ++ w) acc = wordsAux l acc := by
  intro l
  induction l with
  | nil =>
    intro acc
    cases hacc : acc.isEmpty with
    | true =>
      have : acc = [] := by simpa [List.isEmpty_iff] using hacc
      subst this
      simp [wordsAux, wordsAux_all_ws w hw]
    | false =>
      have hne : acc ≠ [] := by simp_all [List.isEmpty_iff]
      simp [wordsAux_end acc hne w hw, wordsAux, hacc]
  | cons c cs ih =>
    intro acc
    by_cases hc : isPySpace c = true
    · cases hacc : acc.isEmpty with
      | true => simp [wordsAux, hc, hacc, ih]
      | false => simp [wordsAux, hc, hacc, ih]
    · have hc' : isPySpace c = false := by simpa using hc
      simp [wordsAux, hc', ih]

theorem wordsAux_four_tokens
    (w0 w1 w2 w3 w4 t1 t2 t3 t4 : List Char)
    (hw0 : ∀ c ∈ w0, isPySpace c = true) (hw1 : ∀ c ∈ w1, isPySpace c = true)
    (hw2 : ∀ c ∈ w2, isPySpace c = true) (hw3 : ∀ c ∈ w3, isPySpace c = true)
    (hw4 : ∀ c ∈ w4, isPySpace c = true)
    (hw1n : w1 ≠ []) (hw2n : w2 ≠ []) (hw3n : w3 ≠ [])
    (ht1 : ∀ c ∈ t1, isPySpace c = false) (ht2 : ∀ c ∈ t2, isPySpace c = false)
    (ht3 : ∀ c ∈ t3, isPySpace c = false) (ht4 : ∀ c ∈ t4, isPySpace c = false)
    (ht1n : t1 ≠ []) (ht2n : t2 ≠ []) (ht3n : t3 ≠ []) (ht4n : t4 ≠ []) :
    wordsAux (w0 ++ (t1 ++ (w1 ++ (t2 ++ (w2 ++ (t3 ++ (w3 ++ (t4 ++ w4)))))))) [] =
      [t1, t2, t3, t4] := by
  rw [wordsAux_ws_skip w0 _ hw0,
    wordsAux_token t1 ht1, List.append_nil,
    wordsAux_flush t1.reverse (by simpa using ht1n) w1 _ hw1n hw1, List.reverse_reverse,
    wordsAux_token t2 ht2, List.append_nil,
    wordsAux_flush t2.reverse (by simpa using ht2n) w2 _ hw2n hw2, List.reverse_reverse,
    wordsAux_token t3 ht3, List.append_nil,
    wordsAux_flush t3.reverse (by simpa using ht3n) w3 _ hw3n hw3, List.reverse_reverse,
    wordsAux_token t4 ht4, List.append_nil,
    wordsAux_end t4.reverse (by simpa using ht4n) w4 hw4, List.reverse_reverse]

theorem pySplit_four_tokens (w0 w1 w2 w3 w4 t1 t2 t3 t4 : String)
    (hw0 : ∀ c ∈ w0.data, isPySpace c = true) (hw1 : ∀ c ∈ w1.data, isPySpace c = true)
    (hw2 : ∀ c ∈ w2.data, isPySpace c = true) (hw3 : ∀ c ∈ w3.data, isPySpace c = true)
    (hw4 : ∀ c ∈ w4.data, isPySpace c = true)
    (hw1n : w1.data ≠ []) (hw2n : w2.data ≠ []) (hw3n : w3.data ≠ [])
    (ht1 : ∀ c ∈ t1.data, isPySpace c = false) (ht2 : ∀ c ∈ t2.data, isPySpace c = false)
    (ht3 : ∀ c ∈ t3.data, isPySpace c = false) (ht4 : ∀ c ∈ t4.data, isPySpace c = false)
    (ht1n : t1.data ≠ []) (ht2n : t2.data ≠ []) (ht3n : t3.data ≠ []) (ht4n : t4.data ≠ []) :
    pySplit (w0 ++ (t1 ++ (w1 ++ (t2 ++ (w2 ++ (t3 ++ (w3 ++ (t4 ++ w4)))))))) =
      [t1, t2, t3, t4] := by
  unfold pySplit
  simp only [String.data_append]
  rw [wordsAux_four_tokens w0.data w1.data w2.data w3.data w4.data
    t1.data t2.data t3.data t4.data hw0 hw1 hw2 hw3 hw4 hw1n hw2n hw3n
    ht1 ht2 ht3 ht4 ht1n ht2n ht3n ht4n]
  simp [stringMk_data]

/-! ## Claims -/

/-- C6: `parse_line "en.d circumfluebant 1 0"` succeeds with exactly the record
(domain_code "en.d", page_title "circumfluebant", view count 1, language "en",
project "wiktionary.org", not mobile); the fourth byte-size field is read and
discarded and appears in no field of the result — replacing it by "999" yields
the identical record. -/
theorem C6_parse_line_concrete :
    parse_line "en.d circumfluebant 1 0" =
      .ok { domain_code := "en.d", page_title := "circumfluebant", count_views := 1,
            language := "en", project := "wiktionary.org", mobile := false } ∧
    parse_line "en.d circumfluebant 1 999" =
      .ok { domain_code := "en.d", page_title := "circumfluebant", count_views := 1,
            language := "en", project := "wiktionary.org", mobile := false } :=
  ⟨rfl, rfl⟩

/-- C4: for every whitelisted meta-project name `P` (with its domain `d`),
decoding `P ++ ".m"` gives ("en", d, false) and decoding `P ++ ".m.m"` gives
("en", d, true): the language is forced to "en" and the mobile flag is true
iff there are exactly three segments. -/
theorem C4_whitelist_decode :
    ∀ p ∈ WIKIMEDIA_SUB_DOMAINS,
      parse_domain_code (p.1 ++ ".m") = .ok ("en", p.2, false) ∧
      parse_domain_code (p.1 ++ ".m.m") = .ok ("en", p.2, true) := by
  decide

/-- Witness for C4 at the concrete whitelist entry "commons". -/
theorem C4_witness :
    parse_domain_code ("commons" ++ ".m") = .ok ("en", "commons.wikimedia.org", false) ∧
    parse_domain_code ("commons" ++ ".m.m") = .ok ("en", "commons.wikimedia.org", true) :=
  C4_whitelist_decode ("commons", "commons.wikimedia.org") (by decide)

/-- C9: sifting with every criterion unset yields the input stream itself,
element for element, in the original order. -/
theorem C9_sift_identity (stream : List Pageviews) :
    sift stream none none none none none none none = stream := by
  unfold sift
  simp

/-- C8: the view-count range criterion uses independent optional inclusive
bounds — `compare_int` accepts a value iff it is not below the lower bound
(when set) and not above the upper bound (when set) — and sifting with only
min_views = 10 and max_views = 19 keeps exactly the records whose view count
lies in [10, 19]. -/
theorem C8_view_range :
    (∀ (filter_min filter_max : Option Int) (target : Int),
      compare_int filter_min filter_max target =
        ((filter_min.all fun m => decide (m ≤ target)) &&
         (filter_max.all fun m => decide (target ≤ m)))) ∧
    (∀ stream : List Pageviews,
      sift stream none none (some 10) (some 19) none none none =
        stream.filter (fun pv => decide (10 ≤ pv.count_views ∧ pv.count_views ≤ 19))) := by
  constructor
  · intro filter_min filter_max target
    cases filter_min <;> cases filter_max <;>
      simp only [compare_int, Option.any, Option.all, Bool.and_true, Bool.true_and] <;>
      (try split) <;> (try split) <;> simp_all
  · intro stream
    unfold sift
    apply List.filter_congr
    intro pv _
    simp [compare_int, Option.any]
    by_cases h1 : (10 : Int) ≤ pv.count_views <;>
      by_cases h2 : pv.count_views ≤ 19 <;>
      simp [h1, h2] <;> omega

/-- C1 counterexample: "abcd" is a single-segment token whose first segment is
a four-letter name that is neither a 2-3 letter language tag nor whitelisted,
yet `parse_domain_code` succeeds on it instead of failing — the first
segment's shape is never validated. -/
theorem C1_counterexample :
    (dotSplit "abcd").length = 1 ∧ "abcd".length = 4 ∧
    WIKIMEDIA_SUB_DOMAINS.lookup "abcd" = none ∧
    parse_domain_code "abcd" = .ok ("abcd", "wikipedia.org", false) := by
  decide

/-- C1 (amended): decoding succeeds for every token with at most three
dot-separated segments — the first segment's shape is not validated — and
fails, with `InvalidDomainCodeError` carrying the offending token, exactly
when there are four or more segments and the first segment is not a
whitelisted meta-project name. -/
theorem C1_amended_decode_totality (s lang : String) (rest : List String)
    (hsplit : dotSplit s = lang :: rest) :
    ((parse_domain_code s).isOk = true ↔
      (rest.length ≤ 2 ∨ (WIKIMEDIA_SUB_DOMAINS.lookup lang).isSome = true)) ∧
    (¬ (rest.length ≤ 2 ∨ (WIKIMEDIA_SUB_DOMAINS.lookup lang).isSome = true) →
      parse_domain_code s = .error (.invalidDomainCode s)) := by
  unfold parse_domain_code
  rw [hsplit]
  rcases rest with _ | ⟨p1, rest2⟩
  · simp [Except.isOk, Except.toBool]
  · rcases hl : WIKIMEDIA_SUB_DOMAINS.lookup lang with _ | d
    · rcases rest2 with _ | ⟨p2, rest3⟩
      · simp only [hl]
        split <;> simp [Except.isOk, Except.toBool]
      · rcases rest3 with _ | ⟨p3, rest4⟩
        · simp [hl, Except.isOk, Except.toBool]
        · simp [hl, Except.isOk, Except.toBool]
    · simp [hl, Except.isOk, Except.toBool]

/-- Witness for C1 at the concrete token "a.b.c.d". -/
theorem C1_witness :
    parse_domain_code "a.b.c.d" = .error (.invalidDomainCode "a.b.c.d") :=
  (C1_amended_decode_totality "a.b.c.d" "a" ["b", "c", "d"] (by decide)).2 (by decide)

/-- C2 counterexample: "commons.m.m.m" has four dot-separated segments, yet
`parse_domain_code` succeeds on it (the whitelist check precedes the
segment-count check), refuting "always fails regardless of the first
segment". -/
theorem C2_counterexample :
    (dotSplit "commons.m.m.m").length = 4 ∧
    parse_domain_code "commons.m.m.m" = .ok ("en", "commons.wikimedia.org", false) := by
  decide

/-- C2 (amended): for every domain code with four or more dot-separated
segments, decoding fails with `InvalidDomainCodeError` when the first segment
is not a whitelisted meta-project name; when it is whitelisted, decoding
succeeds with ("en", the project's domain, false). -/
theorem C2_amended_four_segments (s lang : String) (rest : List String)
    (hsplit : dotSplit s = lang :: rest) (hlen : 3 ≤ rest.length) :
    (WIKIMEDIA_SUB_DOMAINS.lookup lang = none →
      parse_domain_code s = .error (.invalidDomainCode s)) ∧
    (∀ d, WIKIMEDIA_SUB_DOMAINS.lookup lang = some d →
      parse_domain_code s = .ok ("en", d, false)) := by
  unfold parse_domain_code
  rw [hsplit]
  rcases rest with _ | ⟨p1, rest2⟩
  · simp at hlen
  · rcases rest2 with _ | ⟨p2, rest3⟩
    · simp at hlen
    · rcases rest3 with _ | ⟨p3, rest4⟩
      · simp at hlen
      · constructor
        · intro hl
          simp only [hl]
        · intro d hl
          simp only [hl]
          have hb : ((p2 :: p3 :: rest4).length == 1) = false := by
            simp only [List.length_cons, beq_eq_false_iff_ne, ne_eq]
            omega
          rw [hb]

/-- Witness for C2 at the concrete tokens "w.x.y.z" and "commons.m.m.m". -/
theorem C2_witness :
    parse_domain_code "w.x.y.z" = .error (.invalidDomainCode "w.x.y.z") ∧
    parse_domain_code "commons.m.m.m" = .ok ("en", "commons.wikimedia.org", false) :=
  ⟨(C2_amended_four_segments "w.x.y.z" "w" ["x", "y", "z"] (by decide) (by decide)).1
      (by decide),
   (C2_amended_four_segments "commons.m.m.m" "commons" ["m", "m", "m"] (by decide)
      (by decide)).2 "commons.wikimedia.org" (by decide)⟩

/-- C3 counterexample: the universally quantified form fails — for
L = "commons" (a whitelisted meta-project name) the code decodes
"commons.m" as ("en", "commons.wikimedia.org", false), not
("commons", "wikipedia.org", true). -/
theorem C3_counterexample :
    ¬ (∀ L : String, parse_domain_code (L ++ ".m") = .ok (L, "wikipedia.org", true)) := by
  intro h
  exact absurd (h "commons") (by decide)

/-- C3 (amended): for every dot-free string L that is not a whitelisted
meta-project name, decoding `L ++ ".m"` gives (L, "wikipedia.org", true) —
the mobile-marker interpretation wins; in particular
decode("no.m") = ("no", "wikipedia.org", true). -/
theorem C3_amended_mobile_marker (L : String) (hdot : ∀ c ∈ L.data, c ≠ '.')
    (hwl : WIKIMEDIA_SUB_DOMAINS.lookup L = none) :
    parse_domain_code (L ++ ".m") = .ok (L, "wikipedia.org", true) := by
  have hsplit : dotSplit (L ++ ".m") = [L, "m"] := by
    unfold dotSplit
    rw [String.data_append]
    rw [show (".m" : String).data = '.' :: ['m'] from rfl]
    rw [splitOnDot_append_dot L.data ['m'] hdot]
    rw [splitOnDot_no_dot ['m'] (by decide)]
    simp only [List.map_cons, List.map_nil, stringMk_data]
  unfold parse_domain_code
  rw [hsplit]
  simp only [hwl]
  rfl

/-- Witness for C3 at the concrete language "no". -/
theorem C3_witness :
    parse_domain_code ("no" ++ ".m") = .ok ("no", "wikipedia.org", true) :=
  C3_amended_mobile_marker "no" (by decide) (by decide)

/-- C5 counterexample: `parse_domain_code` succeeds on the empty string and
returns an empty language, refuting "language and project_domain are both
non-empty for every successfully decoded input". -/
theorem C5_counterexample :
    ¬ (∀ (s : String) (v : String × String × Bool),
        parse_domain_code s = .ok v → v.1 ≠ "" ∧ v.2.1 ≠ "") := by
  intro h
  exact (h "" ("", "wikipedia.org", false) rfl).1 rfl

/-- C5 (amended): for every input on which `parse_domain_code` succeeds the
returned project domain is a non-empty string; the language half of the
invariant fails, since the language can be empty (e.g. on the empty string,
as the counterexample shows). -/
theorem C5_amended_project_nonempty (s lang dom : String) (mob : Bool)
    (h : parse_domain_code s = .ok (lang, dom, mob)) : dom ≠ "" := by
  unfold parse_domain_code at h
  repeat' split at h
  all_goals try exact Except.noConfusion h
  all_goals injection h with h
  all_goals injection h with hA h
  all_goals injection h with hB hC
  all_goals subst hB
  all_goals first
    | decide
    | exact wikimedia_lookup_ne_empty _ _ (by assumption)
    | exact domainsGet_ne_empty _

/-- Witness for C5 at the concrete token "en.d". -/
theorem C5_witness :
    parse_domain_code "en.d" = .ok ("en", "wiktionary.org", false) ∧
    "wiktionary.org" ≠ "" :=
  ⟨rfl, C5_amended_project_nonempty "en.d" "en" "wiktionary.org" false rfl⟩

/-- C7 counterexample: on a line whose view-count field is not an integer but
whose domain code is also invalid, `parse_line` fails with
`InvalidDomainCodeError` (the decode runs before the `int()` conversion),
not with `MalformedLineError` as the claim states for every invalid
view-count. -/
theorem C7_counterexample :
    pyInt "xx" = none ∧
    parse_line "a.b.c.d title xx 0" = .error (.invalidDomainCode "a.b.c.d") ∧
    PvError.invalidDomainCode "a.b.c.d" ≠ PvError.malformedLine := by
  decide

/-- C7 (amended): `parse_line` fails with `MalformedLineError` when the line
does not split into exactly four whitespace-separated fields; with four
fields, a failing domain code propagates `InvalidDomainCodeError` unchanged
(taking precedence over the view-count check); with four fields and a
decodable domain code, an invalid view-count gives `MalformedLineError` and
an integer view-count gives success — the content of the fourth field never
causes failure. -/
theorem C7_amended_parse_line_errors :
    (∀ line : String, (pySplit line).length ≠ 4 →
      parse_line line = .error .malformedLine) ∧
    (∀ (line d t c b : String) (e : PvError), pySplit line = [d, t, c, b] →
      parse_domain_code d = .error e → parse_line line = .error e) ∧
    (∀ (line d t c b : String) (v : String × String × Bool),
      pySplit line = [d, t, c, b] → parse_domain_code d = .ok v → pyInt c = none →
      parse_line line = .error .malformedLine) ∧
    (∀ (line d t c b : String) (v : String × String × Bool) (n : Int),
      pySplit line = [d, t, c, b] → parse_domain_code d = .ok v → pyInt c = some n →
      parse_line line = .ok { domain_code := d, page_title := t, count_views := n,
                              language := v.1, project := v.2.1, mobile := v.2.2 }) := by
  refine ⟨?_, ?_, ?_, ?_⟩
  · intro line hlen
    rcases hs : pySplit line with _ | ⟨x1, _ | ⟨x2, _ | ⟨x3, _ | ⟨x4, _ | ⟨x5, rest⟩⟩⟩⟩⟩
    · unfold parse_line ; rw [hs]
    · unfold parse_line ; rw [hs]
    · unfold parse_line ; rw [hs]
    · unfold parse_line ; rw [hs]
    · exact absurd (by simp [hs]) hlen
    · unfold parse_line ; rw [hs]
  · intro line d t c b e hs he
    unfold parse_line
    simp only [hs, he]
  · intro line d t c b v hs hok hc
    obtain ⟨l, p, m⟩ := v
    unfold parse_line
    simp only [hs, hok, hc]
  · intro line d t c b v n hs hok hn
    obtain ⟨l, p, m⟩ := v
    unfold parse_line
    simp only [hs, hok, hn]

/-- Witness for C7 at the concrete lines "too few" and "en title 7 0". -/
theorem C7_witness :
    parse_line "too few" = .error .malformedLine ∧
    parse_line "en title 7 0" =
      .ok { domain_code := "en", page_title := "title", count_views := 7,
            language := "en", project := "wikipedia.org", mobile := false } :=
  ⟨C7_amended_parse_line_errors.1 "too few" (by decide),
   C7_amended_parse_line_errors.2.2.2 "en title 7 0" "en" "title" "7" "0"
     ("en", "wikipedia.org", false) 7 (by decide) (by decide) (by decide)⟩

/-- C10: `parse_line` is invariant under surrounding whitespace — prepending
any run of whitespace, appending any run of whitespace (e.g. a trailing line
terminator "\n"), or re-spacing the gaps between four fields to arbitrary
non-empty whitespace runs yields the same result, field separation being by
whitespace runs. -/
theorem C10_parse_line_ws_invariant :
    (∀ (w line : String), (∀ c ∈ w.data, isPySpace c = true) →
      parse_line (w ++ line) = parse_line line) ∧
    (∀ (line w : String), (∀ c ∈ w.data, isPySpace c = true) →
      parse_line (line ++ w) = parse_line line) ∧
    (∀ (w0 w1 w2 w3 w4 t1 t2 t3 t4 : String),
      (∀ c ∈ w0.data, isPySpace c = true) → (∀ c ∈ w1.data, isPySpace c = true) →
      (∀ c ∈ w2.data, isPySpace c = true) → (∀ c ∈ w3.data, isPySpace c = true) →
      (∀ c ∈ w4.data, isPySpace c = true) →
      w1.data ≠ [] → w2.data ≠ [] → w3.data ≠ [] →
      (∀ c ∈ t1.data, isPySpace c = false) → (∀ c ∈ t2.data, isPySpace c = false) →
      (∀ c ∈ t3.data, isPySpace c = false) → (∀ c ∈ t4.data, isPySpace c = false) →
      t1.data ≠ [] → t2.data ≠ [] → t3.data ≠ [] → t4.data ≠ [] →
      parse_line (w0 ++ (t1 ++ (w1 ++ (t2 ++ (w2 ++ (t3 ++ (w3 ++ (t4 ++ w4)))))))) =
        parse_line (t1 ++ (" " ++ (t2 ++ (" " ++ (t3 ++ (" " ++ t4))))))) := by
  refine ⟨?_, ?_, ?_⟩
  · intro w line hw
    unfold parse_line pySplit
    rw [String.data_append, wordsAux_ws_skip w.data line.data hw]
  · intro line w hw
    unfold parse_line pySplit
    rw [String.data_append, wordsAux_ws_suffix w.data hw line.data []]
  · intro w0 w1 w2 w3 w4 t1 t2 t3 t4 hw0 hw1 hw2 hw3 hw4 hw1n hw2n hw3n
      ht1 ht2 ht3 ht4 ht1n ht2n ht3n ht4n
    have h1 := pySplit_four_tokens w0 w1 w2 w3 w4 t1 t2 t3 t4 hw0 hw1 hw2 hw3 hw4
      hw1n hw2n hw3n ht1 ht2 ht3 ht4 ht1n ht2n ht3n ht4n
    have h2 := pySplit_four_tokens "" " " " " " " "" t1 t2 t3 t4
      (by decide) (by decide) (by decide) (by decide) (by decide)
      (by decide) (by decide) (by decide) ht1 ht2 ht3 ht4 ht1n ht2n ht3n ht4n
    rw [string_empty_append, string_append_empty] at h2
    unfold parse_line
    rw [h1, h2]

/-- Witness for C10 at a concrete re-spaced line with a trailing newline. -/
theorem C10_witness :
    parse_line (" " ++ ("en.d" ++ ("  " ++ ("x" ++ (" " ++ ("1" ++ (" " ++ ("0" ++ "\n")))))))) =
      parse_line ("en.d" ++ (" " ++ ("x" ++ (" " ++ ("1" ++ (" " ++ "0")))))) :=
  C10_parse_line_ws_invariant.2.2 " " "  " " " " " "\n" "en.d" "x" "1" "0"
    (by decide) (by decide) (by decide) (by decide) (by decide)
    (by decide) (by decide) (by decide)
    (by decide) (by decide) (by decide) (by decide)
    (by decide) (by decide) (by decide) (by decide)

end Pvcreek
